import Mathlib

/-!
Verification of the marshmallow-to-swagger conversion engine of flask-rebar
(`src/flask_rebar/swagger_generation/marshmallow_to_swagger.py`).

The development is a shallow embedding of that module:

* `JVal` / `JsonMap` model the JSONSchema dictionaries the converters build
  (Python dicts with string keys, insertion ordered).
* `MSchema`, `MField`, `MValidator` model the marshmallow objects the engine
  consumes, restricted to the attributes the converters actually read
  (`many`, `unknown`, `partial`, `ordered`, `fields`, `__doc__`, swagger
  title, `allow_none`, `dump_only`, `load_default`, metadata, `data_key`,
  `required`, `validate`, and the per-kind payloads).  The `partial`
  attribute is modelled by `LoadPart` (a bool or a collection of names),
  mirroring `Schema.partial`; the type is not named after the attribute for
  Lean-technical reasons.
* `convertSchema` / `convertField` / `fieldOwn` / `convertValidator` mirror
  `SchemaConverter.convert` (through `MarshmallowConverter.convert`),
  `FieldConverter.convert`, its tagged-setter portion, and the validator
  converters.  `inspect.getmembers` enumerates the tagged setters sorted
  alphabetically by method name; the embedding assembles the result dict in
  that same order.  `logging.debug` calls are modelled by threading a list
  of emitted log entries through the conversion.  Python exceptions are
  modelled by `Except Err`; the `except UnregisteredType` handler of
  `FieldConverter.convert` catches exactly `Err.unregisteredType`.
* `getConverterForType` and `registerType` model
  `ConverterRegistry._get_converter_for_type` / `register_type`, with types
  and converters identified by their class names.

The string constants in namespace `sw` are the swagger words used by the
module.  Modelled from the spec: the `swagger_words` module itself is not
part of the sources; the key names are taken from the spec's output
vocabulary (section 6) and the claims' wording.  Likewise `wireName` models
`compat.get_data_key` (wire-name = `data_key` if set, else the field name),
whose module is also not in the sources; the spec's glossary defines the
wire-name this way.

The `EnumConverter` (whose registration depends on the host marshmallow
version) and the two query-string list specializations are outside the
modelled registry, which follows the request-body/response registries:
`_common_converters() + [DictConverter(), NestedConverter()]`.
-/

set_option autoImplicit false

namespace sw

def type_ : String := "type"

def array : String := "array"

def object_ : String := "object"

def null : String := "null"

def nullable : String := "nullable"

def items : String := "items"

def properties : String := "properties"

def required : String := "required"

def description : String := "description"

def title : String := "title"

def additional_properties : String := "additionalProperties"

def default : String := "default"

def enum : String := "enum"

def format_ : String := "format"

def minimum : String := "minimum"

def maximum : String := "maximum"

def min_items : String := "minItems"

def max_items : String := "maxItems"

def min_length : String := "minLength"

def max_length : String := "maxLength"

def date : String := "date"

def date_time : String := "date-time"

def uuid : String := "uuid"

def string : String := "string"

def integer : String := "integer"

def number : String := "number"

def boolean : String := "boolean"

def read_only : String := "readOnly"

def raise_ : String := "raise"

def exclude : String := "exclude"

def include_ : String := "include"

end sw

/-- JSON-like values: the entries of the JSONSchema dictionaries produced by
the converters (scalars, lists, and nested dictionaries). -/
inductive JVal : Type where
  | null : JVal
  | bool (b : Bool) : JVal
  | int (n : Int) : JVal
  | str (s : String) : JVal
  | arr (xs : List JVal) : JVal
  | obj (m : List (String × JVal)) : JVal

/-- A Python dict with string keys, as an insertion-ordered association list. -/
abbrev JsonMap : Type := List (String × JVal)

/-- First-match association-list lookup (`d[k]` / `k in d`). -/
def lookupKey {β : Type} : List (String × β) → String → Option β
  | [], _ => none
  | (k, v) :: rest, key => if k = key then some v else lookupKey rest key

/-- Python dict assignment `d[k] = v`: replace in place if the key exists,
else append at the end. -/
def setKey {β : Type} : List (String × β) → String → β → List (String × β)
  | [], key, val => [(key, val)]
  | (k, v) :: rest, key, val =>
      if k = key then (k, val) :: rest else (k, v) :: setKey rest key val

/-- Python `d.update(u)`: assign every entry of `u` into `d`, in order. -/
def updateMap : JsonMap → JsonMap → JsonMap
  | m, [] => m
  | m, (k, v) :: rest => updateMap (setKey m k v) rest

/-- Append the entry when the setter produced a value, skip it on `UNSET`.
This is the `if val is not UNSET: jsonschema_obj[attr] = val` step of
`MarshmallowConverter.convert` (keys of distinct setters are distinct, so
plain append matches dict assignment there). -/
def addOpt (m : JsonMap) (k : String) (v : Option JVal) : JsonMap :=
  match v with
  | some x => m ++ [(k, x)]
  | none => m

/-- The keys of a dict, in insertion order. -/
def keysOf {β : Type} (m : List (String × β)) : List String :=
  m.map Prod.fst

/-- The Python `==` test a validator converter performs between a memo entry
and a swagger word: true exactly when the value is that string.  (A
`["string", "null"]` list compares unequal to every string.) -/
def isStrVal (v : JVal) (s : String) : Bool :=
  match v with
  | .str s' => s' = s
  | _ => false

/-- The exceptions the module can raise: `UnregisteredType` (carrying the
attempted method-resolution order and the registry's known types),
`ValueError`, and `KeyError` (from `context.memo[sw.type_]`). -/
inductive Err : Type where
  | unregisteredType (mro : List String) (known : List String) : Err
  | valueError (msg : String) : Err
  | keyError (key : String) : Err

/-- The `Schema.partial` attribute: either a bool (`True` = the whole schema
is partial) or a collection of field names excused from `required`. -/
inductive LoadPart : Type where
  | asBool (b : Bool) : LoadPart
  | asNames (ns : List String) : LoadPart

/-- `marshmallow.utils.is_collection(partial)`: true for the collection
variant, false for a bool. -/
def LoadPart.isCollection : LoadPart → Bool
  | .asBool _ => false
  | .asNames _ => true

/-- Python truthiness of the `partial` value. -/
def LoadPart.truthy : LoadPart → Bool
  | .asBool b => b
  | .asNames ns => !ns.isEmpty

/-- The validator instances the engine can meet: the three registered
validator types (`Range`, `OneOf`, `Length`) plus a validator of a custom
type whose hierarchy (`[name, Validator, object]`) has no registered
converter. -/
inductive MValidator : Type where
  | range (min max : Option Int) : MValidator
  | oneOf (choices : List JVal) : MValidator
  | length (min max : Option Int) : MValidator
  | custom (name : String) : MValidator

mutual
/-- A marshmallow field instance: its kind (the most-derived registered
type) plus the attributes `FieldConverter` and its subclasses read. -/
inductive MField : Type where
  | mk (kind : FieldKind) (allowNone dumpOnly requiredFlag : Bool)
      (loadDefault : Option JVal) (metaDescription : Option String)
      (dataKey : Option String) (validators : List MValidator) : MField

/-- The field types with a registered converter in the request-body /
response registries, plus `custom`: a field deriving directly from
`m.fields.Field` with no registered ancestor (its MRO is
`[name, Field, object]`, and `Field` itself is not registered). -/
inductive FieldKind : Type where
  | string : FieldKind
  | integer : FieldKind
  | number : FieldKind
  | boolean : FieldKind
  | date : FieldKind
  | dateTime : FieldKind
  | uuid : FieldKind
  | dict : FieldKind
  | listK (inner : MField) : FieldKind
  | nested (schema : MSchema) : FieldKind
  | constant (value : JVal) : FieldKind
  | method (swaggerType : Option String) : FieldKind
  | function (swaggerType : Option String) : FieldKind
  | custom (name : String) : FieldKind

/-- A marshmallow schema instance: swagger title, `__doc__`, declared fields
(in declaration order, keyed by field name), `many`, `ordered`, `unknown`,
and `partial`. -/
inductive MSchema : Type where
  | mk (title : String) (doc : Option String)
      (fields : List (String × MField))
      (many ordered : Bool) (unknown : String) (part : LoadPart) : MSchema
end

def MSchema.title : MSchema → String
  | .mk t _ _ _ _ _ _ => t

def MSchema.doc : MSchema → Option String
  | .mk _ d _ _ _ _ _ => d

def MSchema.fields : MSchema → List (String × MField)
  | .mk _ _ f _ _ _ _ => f

def MSchema.many : MSchema → Bool
  | .mk _ _ _ m _ _ _ => m

def MSchema.ordered : MSchema → Bool
  | .mk _ _ _ _ o _ _ => o

def MSchema.unknown : MSchema → String
  | .mk _ _ _ _ _ u _ => u

def MSchema.part : MSchema → LoadPart
  | .mk _ _ _ _ _ _ p => p

def MField.kind : MField → FieldKind
  | .mk k _ _ _ _ _ _ _ => k

def MField.allowNone : MField → Bool
  | .mk _ a _ _ _ _ _ _ => a

def MField.dumpOnly : MField → Bool
  | .mk _ _ d _ _ _ _ _ => d

def MField.requiredFlag : MField → Bool
  | .mk _ _ _ r _ _ _ _ => r

def MField.loadDefault : MField → Option JVal
  | .mk _ _ _ _ l _ _ _ => l

def MField.metaDescription : MField → Option String
  | .mk _ _ _ _ _ d _ _ => d

def MField.dataKey : MField → Option String
  | .mk _ _ _ _ _ _ k _ => k

def MField.validators : MField → List MValidator
  | .mk _ _ _ _ _ _ _ v => v

/-- The deep-copy-then-flip of `SchemaConverter.get_items`: a fresh schema
value equal to `s` except for the multiplicity flag (`copy.deepcopy(obj)`
followed by `singular_obj.many = False`; the original is untouched). -/
def withMany : MSchema → Bool → MSchema
  | .mk t d f _ o u p, b => .mk t d f b o u p

/-- `compat.get_data_key(field)`: the wire-name, `data_key` if set else the
field's bound name. -/
def wireName (name : String) (f : MField) : String :=
  f.dataKey.getD name

namespace SchemaConverter

/-- `SchemaConverter.get_type`. -/
def get_type (s : MSchema) : JVal :=
  if s.many then .str sw.array else .str sw.object_

/-- `SchemaConverter.get_description`: the docstring when present and
truthy, only for singular schemas. -/
def get_description (s : MSchema) : Option JVal :=
  if s.many then none
  else
    match s.doc with
    | some d => if d.isEmpty then none else some (.str d)
    | none => none

/-- `SchemaConverter.get_title` (via `get_swagger_title`). -/
def get_title (s : MSchema) : Option JVal :=
  if !s.many then some (.str s.title) else none

/-- `SchemaConverter.get_additional_properties`: `False` for
`RAISE`/`EXCLUDE`, `True` for `INCLUDE`, `ValueError` otherwise. -/
def get_additional_properties (s : MSchema) : Except Err Bool :=
  if s.unknown = sw.raise_ ∨ s.unknown = sw.exclude then .ok false
  else if s.unknown = sw.include_ then .ok true
  else .error (.valueError ("Unexpected Schema.unknown value " ++ s.unknown ++ " for " ++ s.title ++ " "))

end SchemaConverter

/-- Membership test `prop in obj.partial` for the collection variant. -/
def LoadPart.containsName : LoadPart → String → Bool
  | .asNames ns, p => ns.contains p
  | .asBool _, _ => false

/-- The skip test of `SchemaConverter.get_required`'s loop:
`obj_partial_is_collection and obj.partial and prop in obj.partial`. -/
def excusedByPart (p : LoadPart) (prop : String) : Bool :=
  p.isCollection && p.truthy && p.containsName prop

/-- The field-collecting loop of `SchemaConverter.get_required`: wire-names
of required fields, in declaration order, skipping those excused by a
partial-load collection. -/
def collectRequired (p : LoadPart) : List (String × MField) → List String
  | [] => []
  | (name, f) :: rest =>
      if f.requiredFlag then
        let prop := wireName name f
        if excusedByPart p prop then collectRequired p rest
        else prop :: collectRequired p rest
      else collectRequired p rest

namespace SchemaConverter

end SchemaConverter

/-- The tail of `SchemaConverter.get_required`:
`if required and not obj.ordered: required = sorted(required)` followed by
`return required if required else UNSET`. -/
def finishRequired (req : List String) (ordered : Bool) : Option (List String) :=
  let req := if !req.isEmpty && !ordered then List.insertionSort (· ≤ ·) req else req
  if req.isEmpty then none else some req

namespace SchemaConverter

/-- `SchemaConverter.get_required`: `UNSET` when `many` or `partial is
True`; otherwise the collected wire-names, sorted when nonempty and the
schema is not `ordered`, and `UNSET` when empty. -/
def get_required (s : MSchema) : Option (List String) :=
  if s.many || (match s.part with | .asBool true => true | _ => false) then none
  else finishRequired (collectRequired s.part s.fields) s.ordered

end SchemaConverter

/-- `get_schema_fields`: the `(wire-name, field)` pairs of a schema, sorted
(Python `sorted` on the pairs, which orders by the wire-name). -/
def get_schema_fields (s : MSchema) : List (String × MField) :=
  List.insertionSort (fun a b => a.1 ≤ b.1) (s.fields.map (fun nf => (wireName nf.1 nf.2, nf.2)))

namespace FieldConverter

/-- `FieldConverter.null_type_determination`: under OpenAPI 3 a nullable
field's type widens to `[type, "null"]`; otherwise the bare type name. -/
def null_type_determination (ver : Nat) (allowNone : Bool) (swType : String) : JVal :=
  if ver = 3 && allowNone then .arr [.str swType, .str sw.null] else .str swType

/-- `FieldConverter.get_default`: the load default when present (callable
defaults, which the source skips, are not representable as `JVal`). -/
def get_default (ld : Option JVal) : Option JVal := ld

/-- `FieldConverter.get_nullable`: `True` under OpenAPI 2 for a field that
allows `None`, `UNSET` otherwise. -/
def get_nullable (ver : Nat) (allowNone : Bool) : Option JVal :=
  if ver = 2 && allowNone then some (.bool true) else none

/-- `FieldConverter.get_description`: the `description` metadata entry when
present. -/
def get_description (md : Option String) : Option JVal :=
  md.map JVal.str

end FieldConverter

/-- `ConverterRegistry.register_type`: keyed by the converter's
`MARSHMALLOW_TYPE`; a later registration for the same type overwrites. -/
def registerType (typeMap : List (String × String)) (marshmallowType converterName : String) : List (String × String) :=
  setKey typeMap marshmallowType converterName

/-- `ConverterRegistry.register_types`. -/
def registerTypes (typeMap : List (String × String)) (cs : List (String × String)) : List (String × String) :=
  cs.foldl (fun tm c => registerType tm c.1 c.2) typeMap

/-- The `for cls in method_resolution_order` loop of
`_get_converter_for_type`: the first MRO entry with a registered converter. -/
def findRegistered (typeMap : List (String × String)) : List String → Option String
  | [] => none
  | cls :: rest =>
      match lookupKey typeMap cls with
      | some conv => some conv
      | none => findRegistered typeMap rest

/-- `ConverterRegistry._get_converter_for_type`: walk the MRO most-derived
first; raise `UnregisteredType` (carrying the attempted MRO and the
registry's known types) when nothing matches. -/
def getConverterForType (typeMap : List (String × String)) (mro : List String) : Except Err String :=
  match findRegistered typeMap mro with
  | some conv => .ok conv
  | none => .error (.unregisteredType mro (keysOf typeMap))

/-- The request-body / response registry:
`_common_converters() + [DictConverter(), NestedConverter()]`, registered
in source order (the optional `EnumConverter` is not modelled). -/
def requestBodyTypeMap : List (String × String) :=
  registerTypes [] [("Boolean", "BooleanConverter"), ("Date", "DateConverter"), ("DateTime", "DateTimeConverter"), ("Function", "FunctionConverter"), ("Integer", "IntegerConverter"), ("Length", "LengthConverter"), ("List", "ListConverter"), ("Method", "MethodConverter"), ("Number", "NumberConverter"), ("OneOf", "OneOfConverter"), ("Range", "RangeConverter"), ("Schema", "SchemaConverter"), ("String", "StringConverter"), ("UUID", "UUIDConverter"), ("Constant", "ConstantConverter"), ("Dict", "DictConverter"), ("Nested", "NestedConverter")]

/-- `list(self._type_map.keys())` for the modelled registry. -/
def registryKnownTypes : List String :=
  keysOf requestBodyTypeMap

namespace LengthConverter

/-- `LengthConverter.get_maximum_items`: `maxItems` when the memo's type is
`array`; `KeyError` when the memo has no type entry. -/
def get_maximum_items (memo : JsonMap) (ma : Option Int) : Except Err (Option JVal) := do
  let t ← (match lookupKey memo sw.type_ with
    | some t => Except.ok t
    | none => Except.error (Err.keyError sw.type_))
  pure (if isStrVal t sw.array then ma.map JVal.int else none)

/-- `LengthConverter.get_maximum_length`: `maxLength` when the memo's type
is `string`. -/
def get_maximum_length (memo : JsonMap) (ma : Option Int) : Except Err (Option JVal) := do
  let t ← (match lookupKey memo sw.type_ with
    | some t => Except.ok t
    | none => Except.error (Err.keyError sw.type_))
  pure (if isStrVal t sw.string then ma.map JVal.int else none)

/-- `LengthConverter.get_minimum_items`. -/
def get_minimum_items (memo : JsonMap) (mi : Option Int) : Except Err (Option JVal) := do
  let t ← (match lookupKey memo sw.type_ with
    | some t => Except.ok t
    | none => Except.error (Err.keyError sw.type_))
  pure (if isStrVal t sw.array then mi.map JVal.int else none)

/-- `LengthConverter.get_minimum_length`. -/
def get_minimum_length (memo : JsonMap) (mi : Option Int) : Except Err (Option JVal) := do
  let t ← (match lookupKey memo sw.type_ with
    | some t => Except.ok t
    | none => Except.error (Err.keyError sw.type_))
  pure (if isStrVal t sw.string then mi.map JVal.int else none)

end LengthConverter

/-- The `{validator}` placeholder of the suppressed-error log message. -/
def validatorName : MValidator → String
  | .range _ _ => "Range"
  | .oneOf _ => "OneOf"
  | .length _ _ => "Length"
  | .custom n => n

/-- The `logging.debug` message of `FieldConverter.convert`'s
`except UnregisteredType` handler. -/
def unableToConvertMsg (v : MValidator) : String :=
  "Unable to convert validator " ++ validatorName v

/-- Conversion of one validator instance, dispatched by its most-derived
registered type (`RangeConverter` / `OneOfConverter` / `LengthConverter`,
each through `MarshmallowConverter.convert` with its tagged setters in
method-name order); a validator with no registered ancestor raises
`UnregisteredType` at registry lookup. -/
def convertValidator (v : MValidator) (memo : JsonMap) : Except Err JsonMap :=
  match v with
  | .range mi ma =>
      .ok (addOpt (addOpt [] sw.maximum (ma.map JVal.int)) sw.minimum (mi.map JVal.int))
  | .oneOf choices =>
      .ok (addOpt [] sw.enum (some (.arr choices)))
  | .length mi ma => do
      let maxI ← LengthConverter.get_maximum_items memo ma
      let maxL ← LengthConverter.get_maximum_length memo ma
      let minI ← LengthConverter.get_minimum_items memo mi
      let minL ← LengthConverter.get_minimum_length memo mi
      pure (addOpt (addOpt (addOpt (addOpt [] sw.max_items maxI) sw.max_length maxL) sw.min_items minI) sw.min_length minL)
  | .custom name =>
      .error (.unregisteredType [name, "Validator", "object"] registryKnownTypes)

/-- The validator loop of `FieldConverter.convert`: convert each validator
against the evolving memo, merge its output with `dict.update`, catch
`UnregisteredType` (log and continue), re-raise anything else. -/
def foldValidators : JsonMap → List String → List MValidator → Except Err (JsonMap × List String)
  | memo, logs, [] => .ok (memo, logs)
  | memo, logs, v :: rest =>
      match convertValidator v memo with
      | .ok vout => foldValidators (updateMap memo vout) logs rest
      | .error (.unregisteredType _ _) => foldValidators memo (logs ++ [unableToConvertMsg v]) rest
      | .error e => .error e

/-- `ValueError` message of `MethodConverter.get_type`. -/
def methodSwaggerTypeMsg : String :=
  "Must include \"swagger_type\" keyword argument in Method field"

/-- `ValueError` message of `FunctionConverter.get_type`. -/
def functionSwaggerTypeMsg : String :=
  "Must include \"swagger_type\" keyword argument in Function field"

mutual
def sizeF : MField → Nat
  | .mk k _ _ _ _ _ _ _ => 1 + sizeK k

def sizeK : FieldKind → Nat
  | .listK inner => 1 + sizeF inner
  | .nested s => 1 + sizeS s
  | _ => 1

def sizeS : MSchema → Nat
  | .mk _ _ fields many _ _ _ => 1 + sizeL fields + (if many then 1 else 0)

def sizeL : List (String × MField) → Nat
  | [] => 0
  | (_, f) :: r => 2 + sizeF f + sizeL r
end

theorem sizeS_withMany_false (s : MSchema) :
    sizeS (withMany s false) = sizeS s - (if s.many then 1 else 0) := by
  cases s with
  | mk t d f m o u p => cases m <;> simp [withMany, sizeS, MSchema.many]

theorem sizeS_eq (s : MSchema) :
    sizeS s = 1 + sizeL s.fields + (if s.many then 1 else 0) := by
  cases s with
  | mk t d f m o u p => simp [sizeS, MSchema.fields, MSchema.many]

theorem sizeL_perm {l l' : List (String × MField)} (h : l.Perm l') : sizeL l = sizeL l' := by
  induction h with
  | nil => rfl
  | cons x _ ih => simp [sizeL, ih]
  | swap x y l => simp [sizeL]; omega
  | trans _ _ ih1 ih2 => omega

theorem sizeL_map_wire (l : List (String × MField)) :
    sizeL (l.map (fun nf => (wireName nf.1 nf.2, nf.2))) = sizeL l := by
  induction l with
  | nil => rfl
  | cons x r ih => cases x; simp [sizeL, ih]

theorem sizeL_get_schema_fields (s : MSchema) : sizeL (get_schema_fields s) = sizeL s.fields := by
  unfold get_schema_fields
  rw [sizeL_perm (List.perm_insertionSort _ _), sizeL_map_wire]

mutual
/-- `SchemaConverter.convert` (through `MarshmallowConverter.convert`):
runs the tagged setters in method-name order — `get_additional_properties`,
`get_description`, `get_items`, `get_properties`, `get_required`,
`get_title`, `get_type` — and assembles the entries of every setter that
did not return `UNSET`.  `get_items` recursively converts a deep copy of
the schema with the multiplicity flag cleared; `get_properties` recursively
converts every field, keyed by wire-name. -/
def convertSchema (s : MSchema) (ver : Nat) : Except Err (JsonMap × List String) := do
  let ap ← SchemaConverter.get_additional_properties s
  let descr := SchemaConverter.get_description s
  let (itemsV, itemsLogs) ← (if h : s.many then do
      let (r, lg) ← convertSchema (withMany s false) ver
      pure (some (JVal.obj r), lg)
    else pure (none, []))
  let (props, propsLogs) ← (if s.many then pure (none, []) else do
      let (pl, lg) ← convertFields (get_schema_fields s) ver
      pure (some (JVal.obj pl), lg))
  let req := (SchemaConverter.get_required s).map (fun l => JVal.arr (l.map JVal.str))
  let titleV := SchemaConverter.get_title s
  let ty := SchemaConverter.get_type s
  pure (addOpt (addOpt (addOpt (addOpt (addOpt (addOpt (addOpt [] sw.additional_properties (some (.bool ap))) sw.description descr) sw.items itemsV) sw.properties props) sw.required req) sw.title titleV) sw.type_ (some ty), itemsLogs ++ propsLogs)
termination_by sizeS s
decreasing_by
all_goals
  have h1 := sizeS_withMany_false s
  have h2 := sizeS_eq s
  have h3 := sizeL_get_schema_fields s
  simp_all <;> omega

/-- The `get_properties` loop: convert each field of the (sorted) list. -/
def convertFields (l : List (String × MField)) (ver : Nat) : Except Err (List (String × JVal) × List String) :=
  match l with
  | [] => .ok ([], [])
  | (prop, f) :: rest => do
      let (fj, lg1) ← convertField f ver
      let (restJ, lg2) ← convertFields rest ver
      pure ((prop, JVal.obj fj) :: restJ, lg1 ++ lg2)
termination_by sizeL l
decreasing_by
all_goals simp [sizeL, sizeF] <;> omega

/-- `FieldConverter.convert` after registry dispatch on the field's type:
a `Nested` field is handled by `NestedConverter.convert`, which delegates
wholly to converting `obj.schema`; every other kind runs the tagged
setters (`fieldOwn`), then force-sets `readOnly` for dump-only fields,
then converts the declared validators against the assembled memo. -/
def convertField (f : MField) (ver : Nat) : Except Err (JsonMap × List String) :=
  match f with
  | .mk (.nested s) _ _ _ _ _ _ _ => convertSchema s ver
  | f => do
      let (own, ownLogs) ← fieldOwn f ver
      let memo := if f.dumpOnly then setKey own sw.read_only (.bool true) else own
      foldValidators memo ownLogs f.validators
termination_by 1 + sizeF f
decreasing_by
all_goals simp [sizeF, sizeK] <;> omega

/-- The tagged-setter portion of a field conversion, per registered
converter, assembling the setters in method-name order (`get_default`,
`get_description`, then the kind's own setters interleaved alphabetically,
`get_nullable`, `get_type`).  A field of unregistered type fails at
registry lookup before any converter runs; the `nested` arm is inert
because `convertField` dispatches `Nested` fields to `NestedConverter`'s
overriding `convert` without consulting tagged setters. -/
def fieldOwn (f : MField) (ver : Nat) : Except Err (JsonMap × List String) :=
  match f with
  | .mk .string an _ _ ld md _ _ =>
      .ok (addOpt (addOpt (addOpt (addOpt [] sw.default (FieldConverter.get_default ld)) sw.description (FieldConverter.get_description md)) sw.nullable (FieldConverter.get_nullable ver an)) sw.type_ (some (FieldConverter.null_type_determination ver an sw.string)), [])
  | .mk .integer an _ _ ld md _ _ =>
      .ok (addOpt (addOpt (addOpt (addOpt [] sw.default (FieldConverter.get_default ld)) sw.description (FieldConverter.get_description md)) sw.nullable (FieldConverter.get_nullable ver an)) sw.type_ (some (FieldConverter.null_type_determination ver an sw.integer)), [])
  | .mk .number an _ _ ld md _ _ =>
      .ok (addOpt (addOpt (addOpt (addOpt [] sw.default (FieldConverter.get_default ld)) sw.description (FieldConverter.get_description md)) sw.nullable (FieldConverter.get_nullable ver an)) sw.type_ (some (FieldConverter.null_type_determination ver an sw.number)), [])
  | .mk .boolean an _ _ ld md _ _ =>
      .ok (addOpt (addOpt (addOpt (addOpt [] sw.default (FieldConverter.get_default ld)) sw.description (FieldConverter.get_description md)) sw.nullable (FieldConverter.get_nullable ver an)) sw.type_ (some (FieldConverter.null_type_determination ver an sw.boolean)), [])
  | .mk .date an _ _ ld md _ _ =>
      .ok (addOpt (addOpt (addOpt (addOpt (addOpt [] sw.default (FieldConverter.get_default ld)) sw.description (FieldConverter.get_description md)) sw.format_ (some (.str sw.date))) sw.nullable (FieldConverter.get_nullable ver an)) sw.type_ (some (FieldConverter.null_type_determination ver an sw.string)), [])
  | .mk .dateTime an _ _ ld md _ _ =>
      .ok (addOpt (addOpt (addOpt (addOpt (addOpt [] sw.default (FieldConverter.get_default ld)) sw.description (FieldConverter.get_description md)) sw.format_ (some (.str sw.date_time))) sw.nullable (FieldConverter.get_nullable ver an)) sw.type_ (some (FieldConverter.null_type_determination ver an sw.string)), [])
  | .mk .uuid an _ _ ld md _ _ =>
      .ok (addOpt (addOpt (addOpt (addOpt (addOpt [] sw.default (FieldConverter.get_default ld)) sw.description (FieldConverter.get_description md)) sw.format_ (some (.str sw.uuid))) sw.nullable (FieldConverter.get_nullable ver an)) sw.type_ (some (FieldConverter.null_type_determination ver an sw.string)), [])
  | .mk .dict an _ _ ld md _ _ =>
      .ok (addOpt (addOpt (addOpt (addOpt [] sw.default (FieldConverter.get_default ld)) sw.description (FieldConverter.get_description md)) sw.nullable (FieldConverter.get_nullable ver an)) sw.type_ (some (FieldConverter.null_type_determination ver an sw.object_)), [])
  | .mk (.listK inner) an _ _ ld md _ _ => do
      let (ij, lg) ← convertField inner ver
      .ok (addOpt (addOpt (addOpt (addOpt (addOpt [] sw.default (FieldConverter.get_default ld)) sw.description (FieldConverter.get_description md)) sw.items (some (.obj ij))) sw.nullable (FieldConverter.get_nullable ver an)) sw.type_ (some (FieldConverter.null_type_determination ver an sw.array)), lg)
  | .mk (.constant v) an _ _ ld md _ _ =>
      .ok (addOpt (addOpt (addOpt (addOpt [] sw.default (FieldConverter.get_default ld)) sw.description (FieldConverter.get_description md)) sw.enum (some (.arr [v]))) sw.nullable (FieldConverter.get_nullable ver an), [])
  | .mk (.method st) an _ _ ld md _ _ => do
      let ty ← (match st with
        | some t => Except.ok (FieldConverter.null_type_determination ver an t)
        | none => Except.error (Err.valueError methodSwaggerTypeMsg))
      .ok (addOpt (addOpt (addOpt (addOpt [] sw.default (FieldConverter.get_default ld)) sw.description (FieldConverter.get_description md)) sw.nullable (FieldConverter.get_nullable ver an)) sw.type_ (some ty), [])
  | .mk (.function st) an _ _ ld md _ _ => do
      let ty ← (match st with
        | some t => Except.ok (FieldConverter.null_type_determination ver an t)
        | none => Except.error (Err.valueError functionSwaggerTypeMsg))
      .ok (addOpt (addOpt (addOpt (addOpt [] sw.default (FieldConverter.get_default ld)) sw.description (FieldConverter.get_description md)) sw.nullable (FieldConverter.get_nullable ver an)) sw.type_ (some ty), [])
  | .mk (.nested _) _ _ _ _ _ _ _ =>
      .ok ([], [])
  | .mk (.custom n) _ _ _ _ _ _ _ =>
      .error (.unregisteredType [n, "Field", "object"] registryKnownTypes)
termination_by sizeF f
decreasing_by
all_goals simp [sizeF, sizeK] <;> omega
end

theorem lookupKey_append {β : Type} (m n : List (String × β)) (k : String) :
    lookupKey (m ++ n) k = match lookupKey m k with
      | some v => some v
      | none => lookupKey n k := by
  induction m with
  | nil => simp [lookupKey]
  | cons x r ih =>
      cases x with
      | mk k1 v1 =>
          by_cases hk : k1 = k <;> simp [lookupKey, hk, ih]

theorem lookupKey_addOpt_ne (m : JsonMap) {k k' : String} (v : Option JVal) (h : k' ≠ k) :
    lookupKey (addOpt m k' v) k = lookupKey m k := by
  cases v with
  | none => simp [addOpt]
  | some x => simp [addOpt, lookupKey_append, lookupKey, h]; cases lookupKey m k <;> simp

theorem lookupKey_addOpt_self (m : JsonMap) {k : String} (v : Option JVal)
    (h : lookupKey m k = none) : lookupKey (addOpt m k v) k = v := by
  cases v with
  | none => simpa [addOpt] using h
  | some x => simp [addOpt, lookupKey_append, lookupKey, h]

theorem lookupKey_setKey_self {β : Type} (m : List (String × β)) (k : String) (x : β) :
    lookupKey (setKey m k x) k = some x := by
  induction m with
  | nil => simp [setKey, lookupKey]
  | cons e r ih =>
      cases e with
      | mk k1 v1 => by_cases hk : k1 = k <;> simp [setKey, lookupKey, hk, ih]

theorem lookupKey_setKey_ne {β : Type} (m : List (String × β)) {k k' : String} (x : β)
    (h : k' ≠ k) : lookupKey (setKey m k' x) k = lookupKey m k := by
  induction m with
  | nil => simp [setKey, lookupKey, h]
  | cons e r ih =>
      cases e with
      | mk k1 v1 =>
          by_cases h1 : k1 = k' <;> by_cases h2 : k1 = k <;>
            simp_all [setKey, lookupKey]

theorem ok_bind {ε α β : Type} (v : α) (f : α → Except ε β) :
    (Except.ok v >>= f) = f v := rfl

theorem error_bind {ε α β : Type} (e : ε) (f : α → Except ε β) :
    ((Except.error e : Except ε α) >>= f) = Except.error e := rfl

theorem keysOf_nil {β : Type} : keysOf ([] : List (String × β)) = [] := rfl

theorem keysOf_cons {β : Type} (k : String) (v : β) (r : List (String × β)) :
    keysOf ((k, v) :: r) = k :: keysOf r := rfl

theorem lookupKey_none_of_not_mem {β : Type} (m : List (String × β)) {k : String}
    (h : k ∉ keysOf m) : lookupKey m k = none := by
  induction m with
  | nil => rfl
  | cons e r ih =>
      cases e with
      | mk k1 v1 =>
          rw [keysOf_cons, List.mem_cons] at h
          push_neg at h
          have h1 : ¬k1 = k := Ne.symm h.1
          simp [lookupKey, h1, ih h.2]

theorem lookupKey_updateMap_none (m : JsonMap) {u : JsonMap} {k : String}
    (h : lookupKey u k = none) : lookupKey (updateMap m u) k = lookupKey m k := by
  induction u generalizing m with
  | nil => simp [updateMap]
  | cons e r ih =>
      cases e with
      | mk k1 v1 =>
          by_cases hk : k1 = k
          · simp [lookupKey, hk] at h
          · simp [lookupKey, hk] at h
            simp [updateMap, ih _ h, lookupKey_setKey_ne _ _ hk]

theorem lookupKey_updateMap_some (m : JsonMap) {u : JsonMap} {k : String} {x : JVal}
    (hnd : (keysOf u).Nodup) (h : lookupKey u k = some x) :
    lookupKey (updateMap m u) k = some x := by
  induction u generalizing m with
  | nil => simp [lookupKey] at h
  | cons e r ih =>
      cases e with
      | mk k1 v1 =>
          rw [keysOf_cons, List.nodup_cons] at hnd
          by_cases hk : k1 = k
          · subst hk
            simp [lookupKey] at h
            subst h
            rw [updateMap, lookupKey_updateMap_none _ (lookupKey_none_of_not_mem r hnd.1), lookupKey_setKey_self]
          · simp [lookupKey, hk] at h
            rw [updateMap]
            exact ih (setKey m k1 v1) hnd.2 h

theorem keysOf_addOpt (m : JsonMap) (k : String) (v : Option JVal) :
    keysOf (addOpt m k v) ⊆ keysOf m ++ [k] := by
  cases v <;> simp [addOpt, keysOf] <;> intro a ha <;> simp_all

/-- The output keys any registered validator converter can produce. -/
def validatorAttrKeys : List String :=
  [sw.maximum, sw.minimum, sw.enum, sw.max_items, sw.max_length, sw.min_items, sw.min_length]

theorem keysOf_addOpt_mem {m : JsonMap} {k a : String} {v : Option JVal}
    (ha : a ∈ keysOf (addOpt m k v)) : a ∈ keysOf m ∨ a = k := by
  have := keysOf_addOpt m k v ha
  simpa using this

theorem convertValidator_keys {v : MValidator} {memo vout : JsonMap}
    (h : convertValidator v memo = .ok vout) : keysOf vout ⊆ validatorAttrKeys := by
  cases v with
  | range mi ma =>
      simp [convertValidator] at h
      subst h
      intro a ha
      rcases keysOf_addOpt_mem ha with h1 | h1
      · rcases keysOf_addOpt_mem h1 with h2 | h2
        · simp [keysOf] at h2
        · simp [validatorAttrKeys, h2]
      · simp [validatorAttrKeys, h1]
  | oneOf cs =>
      simp [convertValidator] at h
      subst h
      simp [addOpt, keysOf, validatorAttrKeys]
  | length mi ma =>
      rcases h1 : lookupKey memo sw.type_ with _ | t <;>
        simp [convertValidator, LengthConverter.get_maximum_items,
          LengthConverter.get_maximum_length, LengthConverter.get_minimum_items,
          LengthConverter.get_minimum_length, h1, ok_bind, error_bind] at h
      subst h
      intro a ha
      rcases keysOf_addOpt_mem ha with h2 | h2
      · rcases keysOf_addOpt_mem h2 with h3 | h3
        · rcases keysOf_addOpt_mem h3 with h4 | h4
          · rcases keysOf_addOpt_mem h4 with h5 | h5
            · simp [keysOf] at h5
            · simp [validatorAttrKeys, h5]
          · simp [validatorAttrKeys, h4]
        · simp [validatorAttrKeys, h3]
      · simp [validatorAttrKeys, h2]
  | custom n => simp [convertValidator] at h

theorem convertValidator_lookup_none {v : MValidator} {memo vout : JsonMap} {k : String}
    (h : convertValidator v memo = .ok vout) (hk : k ∉ validatorAttrKeys) :
    lookupKey vout k = none :=
  lookupKey_none_of_not_mem vout (fun hm => hk (convertValidator_keys h hm))

theorem foldValidators_lookup {k : String} (hk : k ∉ validatorAttrKeys) :
    ∀ (vs : List MValidator) (memo : JsonMap) (logs : List String) (m : JsonMap) (lg : List String),
    foldValidators memo logs vs = .ok (m, lg) → lookupKey m k = lookupKey memo k := by
  intro vs
  induction vs with
  | nil =>
      intro memo logs m lg h
      simp [foldValidators] at h
      simp [h.1]
  | cons v rest ih =>
      intro memo logs m lg h
      rw [foldValidators] at h
      rcases hv : convertValidator v memo with e | vout
      · rcases e <;> simp [hv] at h
        case unregisteredType => exact ih _ _ _ _ h
      · simp [hv] at h
        have := ih _ _ _ _ h
        rwa [lookupKey_updateMap_none memo (convertValidator_lookup_none hv hk)] at this

theorem foldValidators_append (memo : JsonMap) (logs : List String) (vs ws : List MValidator) :
    foldValidators memo logs (vs ++ ws) = (foldValidators memo logs vs).bind (fun p => foldValidators p.1 p.2 ws) := by
  induction vs generalizing memo logs with
  | nil => simp [foldValidators, Except.bind]
  | cons v rest ih =>
      rw [List.cons_append, foldValidators, foldValidators]
      rcases hv : convertValidator v memo with e | vout
      · rcases e <;> simp [ih, Except.bind]
      · simp [ih]

theorem ok_map {ε α β : Type} (v : α) (f : α → β) :
    (Except.ok v : Except ε α).map f = Except.ok (f v) := rfl

theorem error_map {ε α β : Type} (e : ε) (f : α → β) :
    (Except.error e : Except ε α).map f = Except.error e := rfl

theorem withMany_many (s : MSchema) (b : Bool) : (withMany s b).many = b := by
  cases s
  rfl

theorem get_ap_withMany (s : MSchema) (b : Bool) :
    SchemaConverter.get_additional_properties (withMany s b) =
      SchemaConverter.get_additional_properties s := by
  cases s
  rfl

theorem isEmpty_insertionSort {α : Type} (r : α → α → Prop) [DecidableRel r] (l : List α) :
    (List.insertionSort r l).isEmpty = l.isEmpty := by
  have hperm := List.perm_insertionSort r l
  rcases l with _ | ⟨a, as⟩
  · simp [List.insertionSort]
  · rcases hs : List.insertionSort r (a :: as) with _ | ⟨b, bs⟩
    · rw [hs] at hperm
      simpa using hperm.length_eq
    · simp

theorem finishRequired_eq (req : List String) (ordered : Bool) :
    finishRequired req ordered =
      if req.isEmpty then none
      else some (if ordered then req else List.insertionSort (· ≤ ·) req) := by
  rcases hemp : req.isEmpty <;> rcases hord : ordered <;>
    simp [finishRequired, hemp, isEmpty_insertionSort]

/-- Specification-side reading of the required list: wire-names of the
declared fields that are required and not excused by a partial-load
collection, in declaration order. -/
def requiredWireNames (s : MSchema) : List String :=
  (s.fields.filter (fun nf => nf.2.requiredFlag && !excusedByPart s.part (wireName nf.1 nf.2))).map
    (fun nf => wireName nf.1 nf.2)

theorem collectRequired_eq (p : LoadPart) (l : List (String × MField)) :
    collectRequired p l =
      (l.filter (fun nf => nf.2.requiredFlag && !excusedByPart p (wireName nf.1 nf.2))).map
        (fun nf => wireName nf.1 nf.2) := by
  induction l with
  | nil => rfl
  | cons nf rest ih =>
      rcases nf with ⟨name, f⟩
      rcases hr : f.requiredFlag <;>
        rcases he : excusedByPart p (wireName name f) <;>
          simp [collectRequired, hr, he, ih]

theorem fieldOwn_validators_irrelevant (kind : FieldKind) (an dO rq : Bool)
    (ld : Option JVal) (md dk : Option String) (vs vs' : List MValidator) (ver : Nat) :
    fieldOwn (MField.mk kind an dO rq ld md dk vs) ver =
      fieldOwn (MField.mk kind an dO rq ld md dk vs') ver := by
  cases kind <;>
    first
    | simp [fieldOwn]
    | (rename_i st; cases st <;> simp [fieldOwn])

theorem fieldOwn_append_validators {kind : FieldKind} {an dO rq : Bool}
    {ld : Option JVal} {md dk : Option String} {vs ws : List MValidator} {ver : Nat} :
    fieldOwn (MField.mk kind an dO rq ld md dk (vs ++ ws)) ver =
      fieldOwn (MField.mk kind an dO rq ld md dk vs) ver :=
  fieldOwn_validators_irrelevant kind an dO rq ld md dk (vs ++ ws) vs ver

/-- C1, counterexample: the claim says a schema with multiplicity set
converts to exactly `{"type": "array", "items": r}`.  On a concrete
many-schema the code emits a third key: `get_additional_properties` is the
one tagged setter with no multiplicity guard, so `additionalProperties`
appears at the array level too. -/
theorem C1_multiplicity_counterexample :
    convertSchema (MSchema.mk "Pet" none [] true false "raise" (LoadPart.asBool false)) 2 =
      .ok ([(sw.additional_properties, JVal.bool false),
            (sw.items, JVal.obj [(sw.additional_properties, JVal.bool false),
              (sw.properties, JVal.obj []), (sw.title, JVal.str "Pet"),
              (sw.type_, JVal.str sw.object_)]),
            (sw.type_, JVal.str sw.array)], []) ∧
    (convertSchema (MSchema.mk "Pet" none [] true false "raise" (LoadPart.asBool false)) 2).map
        (fun p => keysOf p.1) =
      .ok [sw.additional_properties, sw.items, sw.type_] := by
  constructor <;>
    simp [convertSchema, convertFields, withMany, get_schema_fields, addOpt, keysOf,
      SchemaConverter.get_additional_properties, SchemaConverter.get_description,
      SchemaConverter.get_required, SchemaConverter.get_title, SchemaConverter.get_type,
      MSchema.many, MSchema.fields, MSchema.unknown, MSchema.doc, MSchema.title, MSchema.part,
      MSchema.ordered, collectRequired, finishRequired,
      sw.raise_, sw.exclude, sw.include_, ok_bind, error_bind, ok_map, List.insertionSort]

/-- C1 (amended): converting a schema with the multiplicity flag set yields
exactly the three-key mapping `{"additionalProperties": p, "items": r,
"type": "array"}` where `r` is the full conversion of the same schema with
multiplicity cleared (obtained from a deep copy: the embedding's
`withMany s false` is a fresh value and `s` itself is untouched, so its
`many` flag still holds afterwards) and `p` is the additionalProperties
boolean computed from the unchanged unknown-field policy; the same logs are
produced.  No properties/required/title/description keys appear. -/
theorem C1_multiplicity_roundtrip (s : MSchema) (ver : Nat) (h : s.many = true)
    (r : JsonMap) (lg : List String)
    (hr : convertSchema (withMany s false) ver = .ok (r, lg)) :
    ∃ ap, SchemaConverter.get_additional_properties s = .ok ap ∧
      convertSchema s ver =
        .ok ([(sw.additional_properties, JVal.bool ap), (sw.items, JVal.obj r),
              (sw.type_, JVal.str sw.array)], lg) := by
  rcases hap : SchemaConverter.get_additional_properties s with e | ap
  · rw [convertSchema, get_ap_withMany, hap] at hr
    simp [error_bind] at hr
  · refine ⟨ap, rfl, ?_⟩
    rw [convertSchema]
    simp [hap, h, hr, ok_bind, SchemaConverter.get_description,
      SchemaConverter.get_required, SchemaConverter.get_title, SchemaConverter.get_type,
      addOpt]

theorem C1_multiplicity_roundtrip_witness :
    ∃ ap, SchemaConverter.get_additional_properties
        (MSchema.mk "Pet2" none [] true false "exclude" (LoadPart.asBool false)) = .ok ap ∧
      convertSchema (MSchema.mk "Pet2" none [] true false "exclude" (LoadPart.asBool false)) 3 =
        .ok ([(sw.additional_properties, JVal.bool ap),
              (sw.items, JVal.obj [(sw.additional_properties, JVal.bool false),
                (sw.properties, JVal.obj []), (sw.title, JVal.str "Pet2"),
                (sw.type_, JVal.str sw.object_)]),
              (sw.type_, JVal.str sw.array)], []) :=
  C1_multiplicity_roundtrip
    (MSchema.mk "Pet2" none [] true false "exclude" (LoadPart.asBool false)) 3 rfl
    [(sw.additional_properties, JVal.bool false), (sw.properties, JVal.obj []),
     (sw.title, JVal.str "Pet2"), (sw.type_, JVal.str sw.object_)] []
    (by simp [convertSchema, convertFields, withMany, get_schema_fields, addOpt,
      SchemaConverter.get_additional_properties, SchemaConverter.get_description,
      SchemaConverter.get_required, SchemaConverter.get_title, SchemaConverter.get_type,
      MSchema.many, MSchema.fields, MSchema.unknown, MSchema.doc, MSchema.title, MSchema.part,
      MSchema.ordered, collectRequired, finishRequired,
      sw.raise_, sw.exclude, sw.include_, ok_bind, error_bind, List.insertionSort])

/-- C2: a String field with `allow_none` and no validators renders its
nullability as `{"type": "string", "nullable": true}` under OpenAPI 2, and
as `{"type": ["string", "null"]}` with no `nullable` key under OpenAPI 3. -/
theorem C2_nullable_rendering (f : MField) (hk : f.kind = .string)
    (han : f.allowNone = true) (hv : f.validators = []) :
    (∀ m lg, convertField f 2 = .ok (m, lg) →
        lookupKey m sw.type_ = some (.str sw.string) ∧
          lookupKey m sw.nullable = some (.bool true)) ∧
    (∀ m lg, convertField f 3 = .ok (m, lg) →
        lookupKey m sw.type_ = some (.arr [.str sw.string, .str sw.null]) ∧
          lookupKey m sw.nullable = none) := by
  cases f with
  | mk kind an dO rq ld md dk vals =>
      simp [MField.kind] at hk
      simp [MField.allowNone] at han
      simp [MField.validators] at hv
      subst hk
      subst han
      subst hv
      constructor <;>
        (intro m lg h
         simp only [convertField] at h
         simp [fieldOwn, ok_bind, foldValidators, MField.dumpOnly, MField.validators,
           FieldConverter.get_default, FieldConverter.get_description, FieldConverter.get_nullable,
           FieldConverter.null_type_determination] at h
         rcases h with ⟨hm, hlg⟩
         subst hm
         cases dO <;> cases ld <;> cases md <;>
           simp [addOpt, setKey, lookupKey, sw.default, sw.description, sw.nullable, sw.type_,
             sw.read_only])

theorem C2_nullable_rendering_witness :
    (lookupKey [(sw.nullable, JVal.bool true), (sw.type_, JVal.str sw.string)] sw.type_ =
        some (.str sw.string) ∧
      lookupKey [(sw.nullable, JVal.bool true), (sw.type_, JVal.str sw.string)] sw.nullable =
        some (.bool true)) ∧
    (lookupKey [(sw.type_, JVal.arr [.str sw.string, .str sw.null])] sw.type_ =
        some (.arr [.str sw.string, .str sw.null]) ∧
      lookupKey [(sw.type_, JVal.arr [.str sw.string, .str sw.null])] sw.nullable = none) :=
  ⟨(C2_nullable_rendering (MField.mk .string true false false none none none []) rfl rfl rfl).1
      [(sw.nullable, JVal.bool true), (sw.type_, JVal.str sw.string)] []
      (by simp [convertField, fieldOwn, foldValidators, MField.dumpOnly, MField.validators,
        FieldConverter.get_default, FieldConverter.get_description, FieldConverter.get_nullable,
        FieldConverter.null_type_determination, addOpt, ok_bind]),
   (C2_nullable_rendering (MField.mk .string true false false none none none []) rfl rfl rfl).2
      [(sw.type_, JVal.arr [.str sw.string, .str sw.null])] []
      (by simp [convertField, fieldOwn, foldValidators, MField.dumpOnly, MField.validators,
        FieldConverter.get_default, FieldConverter.get_description, FieldConverter.get_nullable,
        FieldConverter.null_type_determination, addOpt, ok_bind])⟩

/-- C3: a Length validator on a non-nullable list field contributes
minItems/maxItems for whichever bounds are set (and no length keys); the
identical validator on a string field contributes minLength/maxLength (and
no item keys); on an integer field it contributes none of the four — the
choice follows the `type` entry of the context memo assembled by the
enclosing field converter. -/
theorem C3_length_disambiguation (mi ma : Option Int) :
    (∀ (inner : MField) (ver : Nat) (m : JsonMap) (lg : List String),
      convertField (MField.mk (.listK inner) false false false none none none [.length mi ma]) ver =
          .ok (m, lg) →
      lookupKey m sw.min_items = mi.map JVal.int ∧ lookupKey m sw.max_items = ma.map JVal.int ∧
        lookupKey m sw.min_length = none ∧ lookupKey m sw.max_length = none) ∧
    (∀ (ver : Nat) (m : JsonMap) (lg : List String),
      convertField (MField.mk .string false false false none none none [.length mi ma]) ver =
          .ok (m, lg) →
      lookupKey m sw.min_length = mi.map JVal.int ∧ lookupKey m sw.max_length = ma.map JVal.int ∧
        lookupKey m sw.min_items = none ∧ lookupKey m sw.max_items = none) ∧
    (∀ (ver : Nat) (m : JsonMap) (lg : List String),
      convertField (MField.mk .integer false false false none none none [.length mi ma]) ver =
          .ok (m, lg) →
      lookupKey m sw.min_items = none ∧ lookupKey m sw.max_items = none ∧
        lookupKey m sw.min_length = none ∧ lookupKey m sw.max_length = none) := by
  refine ⟨?_, ?_, ?_⟩
  · intro inner ver m lg h
    simp only [convertField] at h
    rcases hin : convertField inner ver with e | ij
    · simp [fieldOwn, hin, error_bind] at h
    · rcases ij with ⟨ijm, ijlg⟩
      rcases mi with _ | a <;> rcases ma with _ | b <;>
        (simp [fieldOwn, hin, ok_bind, MField.dumpOnly, MField.validators,
          FieldConverter.get_default, FieldConverter.get_description, FieldConverter.get_nullable,
          FieldConverter.null_type_determination, foldValidators, convertValidator,
          LengthConverter.get_maximum_items, LengthConverter.get_maximum_length,
          LengthConverter.get_minimum_items, LengthConverter.get_minimum_length,
          addOpt, setKey, lookupKey, updateMap, isStrVal,
          sw.nullable, sw.type_, sw.items, sw.array, sw.string,
          sw.min_items, sw.max_items, sw.min_length, sw.max_length] at h
         rcases h with ⟨hm, hlg⟩
         subst hm
         simp [lookupKey, sw.min_items, sw.max_items, sw.min_length, sw.max_length,
           sw.type_, sw.items])
  · intro ver m lg h
    simp only [convertField] at h
    rcases mi with _ | a <;> rcases ma with _ | b <;>
      (simp [fieldOwn, ok_bind, MField.dumpOnly, MField.validators,
        FieldConverter.get_default, FieldConverter.get_description, FieldConverter.get_nullable,
        FieldConverter.null_type_determination, foldValidators, convertValidator,
        LengthConverter.get_maximum_items, LengthConverter.get_maximum_length,
        LengthConverter.get_minimum_items, LengthConverter.get_minimum_length,
        addOpt, setKey, lookupKey, updateMap, isStrVal,
        sw.nullable, sw.type_, sw.array, sw.string,
        sw.min_items, sw.max_items, sw.min_length, sw.max_length] at h
       rcases h with ⟨hm, hlg⟩
       subst hm
       simp [lookupKey, sw.min_items, sw.max_items, sw.min_length, sw.max_length, sw.type_])
  · intro ver m lg h
    simp only [convertField] at h
    rcases mi with _ | a <;> rcases ma with _ | b <;>
      (simp [fieldOwn, ok_bind, MField.dumpOnly, MField.validators,
        FieldConverter.get_default, FieldConverter.get_description, FieldConverter.get_nullable,
        FieldConverter.null_type_determination, foldValidators, convertValidator,
        LengthConverter.get_maximum_items, LengthConverter.get_maximum_length,
        LengthConverter.get_minimum_items, LengthConverter.get_minimum_length,
        addOpt, setKey, lookupKey, updateMap, isStrVal,
        sw.nullable, sw.type_, sw.array, sw.string, sw.integer,
        sw.min_items, sw.max_items, sw.min_length, sw.max_length] at h
       rcases h with ⟨hm, hlg⟩
       subst hm
       simp [lookupKey, sw.min_items, sw.max_items, sw.min_length, sw.max_length, sw.type_])

theorem C3_length_disambiguation_witness :
    lookupKey [(sw.type_, JVal.str sw.string), (sw.max_length, JVal.int 5),
        (sw.min_length, JVal.int 1)] sw.min_length = some (JVal.int 1) ∧
      lookupKey [(sw.type_, JVal.str sw.string), (sw.max_length, JVal.int 5),
        (sw.min_length, JVal.int 1)] sw.max_length = some (JVal.int 5) ∧
      lookupKey [(sw.type_, JVal.str sw.string), (sw.max_length, JVal.int 5),
        (sw.min_length, JVal.int 1)] sw.min_items = none ∧
      lookupKey [(sw.type_, JVal.str sw.string), (sw.max_length, JVal.int 5),
        (sw.min_length, JVal.int 1)] sw.max_items = none :=
  (C3_length_disambiguation (some 1) (some 5)).2.1 2
    [(sw.type_, JVal.str sw.string), (sw.max_length, JVal.int 5), (sw.min_length, JVal.int 1)] []
    (by simp [convertField, fieldOwn, foldValidators, convertValidator, MField.dumpOnly,
      MField.validators, FieldConverter.get_default, FieldConverter.get_description,
      FieldConverter.get_nullable, FieldConverter.null_type_determination,
      LengthConverter.get_maximum_items, LengthConverter.get_maximum_length,
      LengthConverter.get_minimum_items, LengthConverter.get_minimum_length,
      addOpt, setKey, lookupKey, updateMap, isStrVal, ok_bind,
      sw.nullable, sw.type_, sw.array, sw.string, sw.min_items, sw.max_items,
      sw.min_length, sw.max_length])

theorem C4_unregistered_handling :
    (∀ (kind : FieldKind) (an dO rq : Bool) (ld : Option JVal) (md dk : Option String)
        (vs : List MValidator) (n : String) (ver : Nat) (m : JsonMap) (lg : List String),
      (∀ s', kind ≠ .nested s') →
      convertField (MField.mk kind an dO rq ld md dk vs) ver = .ok (m, lg) →
      convertField (MField.mk kind an dO rq ld md dk (vs ++ [.custom n])) ver =
        .ok (m, lg ++ [unableToConvertMsg (.custom n)])) ∧
    (∀ (n : String) (an dO rq : Bool) (ld : Option JVal) (md dk : Option String)
        (vs : List MValidator) (ver : Nat),
      convertField (MField.mk (.custom n) an dO rq ld md dk vs) ver =
        .error (.unregisteredType [n, "Field", "object"] registryKnownTypes)) ∧
    (∀ (n : String) (ver : Nat),
      convertSchema (MSchema.mk "S" none
          [("x", MField.mk (.custom n) false false false none none none [])]
          false false "raise" (LoadPart.asBool false)) ver =
        .error (.unregisteredType [n, "Field", "object"] registryKnownTypes)) := by
  refine ⟨?_, ?_, ?_⟩
  · intro kind an dO rq ld md dk vs n ver m lg hnn h
    cases kind <;>
      first
      | exact absurd rfl (hnn _)
      | (simp only [convertField] at h ⊢
         rw [fieldOwn_append_validators]
         rcases hfo : fieldOwn (MField.mk _ an dO rq ld md dk vs) ver with e | ⟨own, lgs⟩
         · simp [hfo, error_bind] at h
         · simp only [hfo, ok_bind, MField.dumpOnly, MField.validators] at h ⊢
           rw [foldValidators_append, h]
           simp [foldValidators, convertValidator, Except.bind])
  · intro n an dO rq ld md dk vs ver
    simp [convertField, fieldOwn, error_bind]
  · intro n ver
    rw [convertSchema]
    simp [convertFields, convertField, fieldOwn, get_schema_fields, wireName,
      SchemaConverter.get_additional_properties,
      MSchema.many, MSchema.fields, MSchema.unknown, MSchema.title,
      MField.dataKey, List.insertionSort,
      sw.raise_, sw.exclude, ok_bind, error_bind]

theorem C4_unregistered_handling_witness :
    convertField (MField.mk .string false false false none none none [.custom "MyValidator"]) 2 =
      .ok ([(sw.type_, JVal.str sw.string)],
        [unableToConvertMsg (.custom "MyValidator")]) :=
  C4_unregistered_handling.1 FieldKind.string false false false none none none [] "MyValidator" 2
    [(sw.type_, JVal.str sw.string)] [] (fun s' h => FieldKind.noConfusion h)
    (by simp [convertField, fieldOwn, foldValidators, MField.dumpOnly, MField.validators,
      FieldConverter.get_default, FieldConverter.get_description, FieldConverter.get_nullable,
      FieldConverter.null_type_determination, addOpt, ok_bind])

/-- C4, counterexample: the claim promises, for every field whose validate
list holds a validator of unregistered type, that a diagnostic log entry is
emitted.  A Nested field's conversion is overridden to delegate wholly to
the sub-schema: its validators are never visited, so conversion succeeds
with an empty log. -/
theorem C4_unregistered_counterexample :
    convertField (MField.mk
        (.nested (MSchema.mk "N" none [] false false "raise" (LoadPart.asBool false)))
        false false false none none none [.custom "MyValidator"]) 2 =
      .ok ([(sw.additional_properties, JVal.bool false), (sw.properties, JVal.obj []),
            (sw.title, JVal.str "N"), (sw.type_, JVal.str sw.object_)], []) ∧
    MValidator.custom "MyValidator" ∈ (MField.mk
        (.nested (MSchema.mk "N" none [] false false "raise" (LoadPart.asBool false)))
        false false false none none none [.custom "MyValidator"]).validators := by
  constructor
  · simp [convertField, convertSchema, convertFields, get_schema_fields, addOpt,
      SchemaConverter.get_additional_properties, SchemaConverter.get_description,
      SchemaConverter.get_required, SchemaConverter.get_title, SchemaConverter.get_type,
      MSchema.many, MSchema.fields, MSchema.unknown, MSchema.doc, MSchema.title, MSchema.part,
      MSchema.ordered, collectRequired, finishRequired,
      sw.raise_, sw.exclude, sw.include_, ok_bind, error_bind, List.insertionSort]
  · simp [MField.validators]

/-- C5: for a schema with multiplicity clear, conversion maps
`additionalProperties` to `false` under the `raise` or `exclude`
unknown-field policy and to `true` under `include`; any other policy value
raises a `ValueError` carrying the offending value. -/
theorem C5_additional_properties (s : MSchema) (ver : Nat) (hm : s.many = false) :
    ((s.unknown = sw.raise_ ∨ s.unknown = sw.exclude) →
      ∀ m lg, convertSchema s ver = .ok (m, lg) →
        lookupKey m sw.additional_properties = some (.bool false)) ∧
    (s.unknown = sw.include_ →
      ∀ m lg, convertSchema s ver = .ok (m, lg) →
        lookupKey m sw.additional_properties = some (.bool true)) ∧
    (s.unknown ≠ sw.raise_ → s.unknown ≠ sw.exclude → s.unknown ≠ sw.include_ →
      convertSchema s ver =
        .error (.valueError ("Unexpected Schema.unknown value " ++ s.unknown ++ " for " ++
          s.title ++ " "))) := by
  refine ⟨?_, ?_, ?_⟩
  · intro hu m lg h
    rw [convertSchema] at h
    rcases hp : convertFields (get_schema_fields s) ver with e | pl
    · simp [SchemaConverter.get_additional_properties, hu, hm, hp, ok_bind, error_bind] at h
    · simp [SchemaConverter.get_additional_properties, hu, hm, hp, ok_bind, error_bind] at h
      rcases h with ⟨hm2, hlg⟩
      subst hm2
      rcases hd : SchemaConverter.get_description s with _ | dv <;>
        rcases hr : SchemaConverter.get_required s with _ | rl <;>
          simp [hd, hr, addOpt, lookupKey, SchemaConverter.get_title, SchemaConverter.get_type,
            hm, sw.additional_properties, sw.description, sw.items, sw.properties, sw.required,
            sw.title, sw.type_]
  · intro hu m lg h
    rw [convertSchema] at h
    rcases hp : convertFields (get_schema_fields s) ver with e | pl
    · simp [SchemaConverter.get_additional_properties, hu, hm, hp, ok_bind, error_bind,
        sw.raise_, sw.exclude, sw.include_] at h
    · simp [SchemaConverter.get_additional_properties, hu, hm, hp, ok_bind, error_bind,
        sw.raise_, sw.exclude, sw.include_] at h
      rcases h with ⟨hm2, hlg⟩
      subst hm2
      rcases hd : SchemaConverter.get_description s with _ | dv <;>
        rcases hr : SchemaConverter.get_required s with _ | rl <;>
          simp [hd, hr, addOpt, lookupKey, SchemaConverter.get_title, SchemaConverter.get_type,
            hm, sw.additional_properties, sw.description, sw.items, sw.properties, sw.required,
            sw.title, sw.type_]
  · intro h1 h2 h3
    rw [convertSchema]
    simp [SchemaConverter.get_additional_properties, h1, h2, h3, error_bind]

theorem C5_additional_properties_witness :
    lookupKey [(sw.additional_properties, JVal.bool false), (sw.properties, JVal.obj []),
        (sw.title, JVal.str "S"), (sw.type_, JVal.str sw.object_)] sw.additional_properties =
      some (.bool false) ∧
    lookupKey [(sw.additional_properties, JVal.bool true), (sw.properties, JVal.obj []),
        (sw.title, JVal.str "S"), (sw.type_, JVal.str sw.object_)] sw.additional_properties =
      some (.bool true) ∧
    convertSchema (MSchema.mk "S" none [] false false "weird" (LoadPart.asBool false)) 2 =
      .error (.valueError ("Unexpected Schema.unknown value " ++
        (MSchema.mk "S" none [] false false "weird" (LoadPart.asBool false)).unknown ++
        " for " ++ (MSchema.mk "S" none [] false false "weird" (LoadPart.asBool false)).title ++
        " ")) :=
  ⟨(C5_additional_properties (MSchema.mk "S" none [] false false "raise" (LoadPart.asBool false))
      2 rfl).1 (Or.inl rfl)
      [(sw.additional_properties, JVal.bool false), (sw.properties, JVal.obj []),
       (sw.title, JVal.str "S"), (sw.type_, JVal.str sw.object_)] []
      (by simp [convertSchema, convertFields, get_schema_fields, addOpt,
        SchemaConverter.get_additional_properties, SchemaConverter.get_description,
        SchemaConverter.get_required, SchemaConverter.get_title, SchemaConverter.get_type,
        MSchema.many, MSchema.fields, MSchema.unknown, MSchema.doc, MSchema.title, MSchema.part,
        MSchema.ordered, collectRequired, finishRequired,
        sw.raise_, sw.exclude, sw.include_, ok_bind, List.insertionSort]),
   (C5_additional_properties (MSchema.mk "S" none [] false false "include" (LoadPart.asBool false))
      2 rfl).2.1 rfl
      [(sw.additional_properties, JVal.bool true), (sw.properties, JVal.obj []),
       (sw.title, JVal.str "S"), (sw.type_, JVal.str sw.object_)] []
      (by simp [convertSchema, convertFields, get_schema_fields, addOpt,
        SchemaConverter.get_additional_properties, SchemaConverter.get_description,
        SchemaConverter.get_required, SchemaConverter.get_title, SchemaConverter.get_type,
        MSchema.many, MSchema.fields, MSchema.unknown, MSchema.doc, MSchema.title, MSchema.part,
        MSchema.ordered, collectRequired, finishRequired,
        sw.raise_, sw.exclude, sw.include_, ok_bind, List.insertionSort]),
   (C5_additional_properties (MSchema.mk "S" none [] false false "weird" (LoadPart.asBool false))
      2 rfl).2.2 (by decide) (by decide) (by decide)⟩

/-- C6 (amended): the `required` entry of a converted schema is exactly
what `get_required` computes: the wire-names of required fields not excused
by a partial-load collection — sorted when the schema is not marked
`ordered`, in declaration order when it is — and the key is omitted when
that list is empty, when multiplicity is set, or when the schema is fully
partial.  The concrete A/B example of the claim holds as stated. -/
theorem C6_required_policy :
    (∀ (s : MSchema) (ver : Nat) (m : JsonMap) (lg : List String),
      convertSchema s ver = .ok (m, lg) →
        lookupKey m sw.required =
          (SchemaConverter.get_required s).map (fun l => .arr (l.map .str))) ∧
    (∀ (s : MSchema), s.ordered = false → ∀ l, SchemaConverter.get_required s = some l →
        l.Sorted (· ≤ ·) ∧ ∀ p, (p ∈ l ↔ p ∈ requiredWireNames s)) ∧
    (∀ (s : MSchema), s.ordered = true → ∀ l, SchemaConverter.get_required s = some l →
        l = requiredWireNames s) ∧
    (∀ (s : MSchema), (s.many = true ∨ s.part = .asBool true ∨ requiredWireNames s = []) →
        SchemaConverter.get_required s = none) ∧
    ((convertSchema (MSchema.mk "S" none
        [("A", MField.mk .string false false true none none none []),
         ("B", MField.mk .string false false false none none none [])]
        false false "raise" (.asNames ["A"])) 2).map (fun p => lookupKey p.1 sw.required) =
      .ok none) ∧
    ((convertSchema (MSchema.mk "S" none
        [("A", MField.mk .string false false true none none none []),
         ("B", MField.mk .string false false false none none none [])]
        false false "raise" (.asBool false)) 2).map (fun p => lookupKey p.1 sw.required) =
      .ok (some (.arr [.str "A"]))) := by
  refine ⟨?_, ?_, ?_, ?_, ?_, ?_⟩
  · intro s ver m lg h
    rcases hsm : s.many
    · rw [convertSchema] at h
      rcases hp : convertFields (get_schema_fields s) ver with e | pl
      · rcases hap : SchemaConverter.get_additional_properties s with e2 | ap <;>
          simp [hap, hsm, hp, ok_bind, error_bind] at h
      · rcases hap : SchemaConverter.get_additional_properties s with e2 | ap <;>
          simp [hap, hsm, hp, ok_bind, error_bind] at h
        rcases h with ⟨hm2, hlg⟩
        subst hm2
        rcases hd : SchemaConverter.get_description s with _ | dv <;>
          rcases hr : SchemaConverter.get_required s with _ | rl <;>
            simp [hd, hr, addOpt, lookupKey, SchemaConverter.get_title,
              SchemaConverter.get_type, hsm,
              sw.additional_properties, sw.description, sw.items, sw.properties, sw.required,
              sw.title, sw.type_]
    · rw [convertSchema] at h
      rcases hrec : convertSchema (withMany s false) ver with e | rp
      · rcases hap : SchemaConverter.get_additional_properties s with e2 | ap <;>
          simp [hap, hsm, hrec, ok_bind, error_bind] at h
      · rcases hap : SchemaConverter.get_additional_properties s with e2 | ap <;>
          simp [hap, hsm, hrec, ok_bind, error_bind] at h
        rcases h with ⟨hm2, hlg⟩
        subst hm2
        simp [SchemaConverter.get_description, SchemaConverter.get_required,
          SchemaConverter.get_title, SchemaConverter.get_type, hsm, addOpt, lookupKey,
          sw.additional_properties, sw.items, sw.required, sw.type_]
  · intro s hord l hl
    unfold SchemaConverter.get_required at hl
    rcases hmp : (s.many || (match s.part with | LoadPart.asBool true => true | _ => false)) <;>
      rw [hmp] at hl
    · rw [if_neg (by simp), finishRequired_eq, hord] at hl
      rcases hemp : (collectRequired s.part s.fields).isEmpty <;> rw [hemp] at hl
      · simp only [Bool.false_eq_true, if_false] at hl
        have hleq := Option.some.inj hl
        subst hleq
        constructor
        · exact List.sorted_insertionSort _ _
        · intro p
          rw [List.mem_insertionSort, collectRequired_eq, requiredWireNames]
      · simp at hl
    · rw [if_pos (by simp)] at hl
      cases hl
  · intro s hord l hl
    unfold SchemaConverter.get_required at hl
    rcases hmp : (s.many || (match s.part with | LoadPart.asBool true => true | _ => false)) <;>
      rw [hmp] at hl
    · rw [if_neg (by simp), finishRequired_eq, hord] at hl
      rcases hemp : (collectRequired s.part s.fields).isEmpty <;> rw [hemp] at hl
      · simp only [Bool.false_eq_true, if_false, if_true] at hl
        have hleq := Option.some.inj hl
        subst hleq
        rw [collectRequired_eq, requiredWireNames]
      · simp at hl
    · rw [if_pos (by simp)] at hl
      cases hl
  · intro s hcase
    unfold SchemaConverter.get_required
    rcases hcase with hc | hc | hc
    · simp [hc]
    · simp [hc]
    · rcases hsm : s.many
      · rcases hpt : (match s.part with | LoadPart.asBool true => true | _ => false)
        · have hcol : collectRequired s.part s.fields = [] := by
            rw [collectRequired_eq]
            rw [requiredWireNames] at hc
            exact hc
          simp [hsm, hpt, hcol, finishRequired]
        · simp [hsm, hpt]
      · simp [hsm]
  · simp +decide [convertSchema, convertFields, convertField, fieldOwn, withMany,
      get_schema_fields, addOpt, setKey, lookupKey, updateMap, foldValidators, wireName,
      SchemaConverter.get_additional_properties, SchemaConverter.get_description,
      SchemaConverter.get_required, SchemaConverter.get_title, SchemaConverter.get_type,
      finishRequired, collectRequired, excusedByPart,
      LoadPart.isCollection, LoadPart.truthy, LoadPart.containsName,
      MSchema.many, MSchema.fields, MSchema.unknown, MSchema.doc, MSchema.title, MSchema.part,
      MSchema.ordered, MField.kind, MField.allowNone, MField.dumpOnly, MField.requiredFlag,
      MField.loadDefault, MField.metaDescription, MField.dataKey, MField.validators,
      FieldConverter.get_default, FieldConverter.get_description, FieldConverter.get_nullable,
      FieldConverter.null_type_determination,
      sw.raise_, sw.exclude, sw.include_, sw.required, sw.additional_properties, sw.description,
      sw.items, sw.properties, sw.title, sw.type_, sw.default, sw.nullable, sw.string,
      ok_bind, error_bind, ok_map, error_map, List.insertionSort, List.orderedInsert]
  · simp +decide [convertSchema, convertFields, convertField, fieldOwn, withMany,
      get_schema_fields, addOpt, setKey, lookupKey, updateMap, foldValidators, wireName,
      SchemaConverter.get_additional_properties, SchemaConverter.get_description,
      SchemaConverter.get_required, SchemaConverter.get_title, SchemaConverter.get_type,
      finishRequired, collectRequired, excusedByPart,
      LoadPart.isCollection, LoadPart.truthy, LoadPart.containsName,
      MSchema.many, MSchema.fields, MSchema.unknown, MSchema.doc, MSchema.title, MSchema.part,
      MSchema.ordered, MField.kind, MField.allowNone, MField.dumpOnly, MField.requiredFlag,
      MField.loadDefault, MField.metaDescription, MField.dataKey, MField.validators,
      FieldConverter.get_default, FieldConverter.get_description, FieldConverter.get_nullable,
      FieldConverter.null_type_determination,
      sw.raise_, sw.exclude, sw.include_, sw.required, sw.additional_properties, sw.description,
      sw.items, sw.properties, sw.title, sw.type_, sw.default, sw.nullable, sw.string,
      ok_bind, error_bind, ok_map, error_map, List.insertionSort, List.orderedInsert]

/-- C6, counterexample: the claim says the `required` list is sorted.  For
a schema marked `ordered`, `get_required` skips the sort: with required
fields declared as b then a, the output keeps declaration order `[b, a]`,
not the claimed sorted `[a, b]`. -/
theorem C6_required_counterexample :
    (convertSchema (MSchema.mk "S" none
        [("b", MField.mk .string false false true none none none []),
         ("a", MField.mk .string false false true none none none [])]
        false true "raise" (.asBool false)) 2).map (fun p => lookupKey p.1 sw.required) =
      .ok (some (.arr [.str "b", .str "a"])) ∧
    JVal.arr [JVal.str "b", JVal.str "a"] ≠ JVal.arr [JVal.str "a", JVal.str "b"] := by
  constructor
  · simp +decide [convertSchema, convertFields, convertField, fieldOwn, withMany,
      get_schema_fields, addOpt, setKey, lookupKey, updateMap, foldValidators, wireName,
      SchemaConverter.get_additional_properties, SchemaConverter.get_description,
      SchemaConverter.get_required, SchemaConverter.get_title, SchemaConverter.get_type,
      finishRequired, collectRequired, excusedByPart,
      LoadPart.isCollection, LoadPart.truthy, LoadPart.containsName,
      MSchema.many, MSchema.fields, MSchema.unknown, MSchema.doc, MSchema.title, MSchema.part,
      MSchema.ordered, MField.kind, MField.allowNone, MField.dumpOnly, MField.requiredFlag,
      MField.loadDefault, MField.metaDescription, MField.dataKey, MField.validators,
      FieldConverter.get_default, FieldConverter.get_description, FieldConverter.get_nullable,
      FieldConverter.null_type_determination,
      sw.raise_, sw.exclude, sw.include_, sw.required, sw.additional_properties, sw.description,
      sw.items, sw.properties, sw.title, sw.type_, sw.default, sw.nullable, sw.string,
      ok_bind, error_bind, ok_map, error_map, List.insertionSort, List.orderedInsert]
  · simp

theorem C6_required_policy_witness :
    List.Sorted (· ≤ ·) ["A"] ∧
      ∀ p, (p ∈ (["A"] : List String) ↔ p ∈ requiredWireNames (MSchema.mk "S" none
        [("A", MField.mk .string false false true none none none []),
         ("B", MField.mk .string false false false none none none [])]
        false false "raise" (.asBool false))) :=
  C6_required_policy.2.1 (MSchema.mk "S" none
      [("A", MField.mk .string false false true none none none []),
       ("B", MField.mk .string false false false none none none [])]
      false false "raise" (.asBool false)) rfl ["A"]
    (by simp [SchemaConverter.get_required, finishRequired, collectRequired, excusedByPart,
      wireName, MSchema.many, MSchema.fields, MSchema.part, MSchema.ordered,
      MField.requiredFlag, MField.dataKey, LoadPart.isCollection, LoadPart.truthy,
      LoadPart.containsName, List.insertionSort, List.orderedInsert])

theorem convertField_not_nested (f : MField) (hnn : ∀ s', f.kind ≠ .nested s') (ver : Nat) :
    convertField f ver = (do
      let p ← fieldOwn f ver
      foldValidators (if f.dumpOnly then setKey p.1 sw.read_only (.bool true) else p.1)
        p.2 f.validators) := by
  cases f with
  | mk kind an dO rq ld md dk vs =>
      cases kind <;>
        first
        | exact absurd rfl (hnn _ )
        | simp [convertField, MField.dumpOnly, MField.validators]

/-- C8 (amended): every non-Nested field with the dump-only flag set maps
`readOnly` to `true` in its conversion output — the flag is force-set after
the tagged setters and no validator output carries that key, so nothing
suppresses it.  A Nested field, however, delegates wholly to converting its
sub-schema, so its conversion adds no `readOnly` key at all. -/
theorem C8_read_only (f : MField) (ver : Nat) :
    (∀ (m : JsonMap) (lg : List String),
      (∀ s', f.kind ≠ .nested s') → f.dumpOnly = true →
      convertField f ver = .ok (m, lg) → lookupKey m sw.read_only = some (.bool true)) ∧
    (∀ (s' : MSchema) (an dO rq : Bool) (ld : Option JVal) (md dk : Option String)
        (vs : List MValidator),
      convertField (MField.mk (.nested s') an dO rq ld md dk vs) ver = convertSchema s' ver) := by
  constructor
  · intro m lg hnn hdo h
    rw [convertField_not_nested f hnn ver] at h
    rcases hfo : fieldOwn f ver with e | ⟨own, lgs⟩
    · rw [hfo] at h
      simp [error_bind] at h
    · rw [hfo, ok_bind, hdo] at h
      simp only [if_true, reduceIte] at h
      have hpres := foldValidators_lookup (show sw.read_only ∉ validatorAttrKeys by decide)
        f.validators (setKey own sw.read_only (.bool true)) lgs m lg h
      rw [hpres, lookupKey_setKey_self]
  · intro s' an dO rq ld md dk vs
    simp [convertField]

/-- C8, counterexample: a Nested, dump-only field converts to its
sub-schema's mapping with no `readOnly` key — `NestedConverter.convert`
overrides the base conversion, bypassing the force-set. -/
theorem C8_read_only_counterexample :
    convertField (MField.mk
        (.nested (MSchema.mk "N" none [] false false "raise" (LoadPart.asBool false)))
        false true false none none none []) 2 =
      .ok ([(sw.additional_properties, JVal.bool false), (sw.properties, JVal.obj []),
            (sw.title, JVal.str "N"), (sw.type_, JVal.str sw.object_)], []) ∧
    lookupKey [(sw.additional_properties, JVal.bool false), (sw.properties, JVal.obj []),
        (sw.title, JVal.str "N"), (sw.type_, JVal.str sw.object_)] sw.read_only = none := by
  constructor
  · simp [convertField, convertSchema, convertFields, get_schema_fields, addOpt,
      SchemaConverter.get_additional_properties, SchemaConverter.get_description,
      SchemaConverter.get_required, SchemaConverter.get_title, SchemaConverter.get_type,
      MSchema.many, MSchema.fields, MSchema.unknown, MSchema.doc, MSchema.title, MSchema.part,
      MSchema.ordered, collectRequired, finishRequired,
      sw.raise_, sw.exclude, sw.include_, ok_bind, error_bind, List.insertionSort]
  · simp [lookupKey, sw.additional_properties, sw.properties, sw.title, sw.type_, sw.read_only]

theorem C8_read_only_witness :
    lookupKey [(sw.type_, JVal.str sw.string), (sw.read_only, JVal.bool true)] sw.read_only =
      some (.bool true) :=
  (C8_read_only (MField.mk .string false true false none none none []) 2).1
    [(sw.type_, JVal.str sw.string), (sw.read_only, JVal.bool true)] []
    (fun s' h => FieldKind.noConfusion h) rfl
    (by simp [convertField, fieldOwn, foldValidators, MField.dumpOnly, MField.validators,
      FieldConverter.get_default, FieldConverter.get_description, FieldConverter.get_nullable,
      FieldConverter.null_type_determination, addOpt, setKey, ok_bind,
      sw.type_, sw.read_only, sw.nullable, sw.default, sw.description])

/-- C7 (amended): for every field whose converter defines a type setter —
every modelled kind except Constant (whose converter sets only `enum`),
Nested (which never runs validator conversion), and unregistered custom
fields (which never reach a converter) — the tagged-setter output already
contains a `type` entry; no validator converter output carries a `type`
key, and the readOnly force-set uses a different key, so every validator
converted in the loop reads a memo containing `type`. -/
theorem C7_memo_has_type (f : MField) (ver : Nat) :
    (∀ (own : JsonMap) (lgs : List String),
      (∀ v, f.kind ≠ .constant v) → (∀ s', f.kind ≠ .nested s') →
      (∀ nm, f.kind ≠ .custom nm) →
      fieldOwn f ver = .ok (own, lgs) → lookupKey own sw.type_ ≠ none) ∧
    (∀ (own : JsonMap) (x : JVal),
      lookupKey (setKey own sw.read_only x) sw.type_ = lookupKey own sw.type_) ∧
    (∀ (v : MValidator) (memo vout : JsonMap),
      convertValidator v memo = .ok vout → lookupKey vout sw.type_ = none) := by
  refine ⟨?_, ?_, ?_⟩
  · intro own lgs hnc hnn hncu h
    cases f with
    | mk kind an dO rq ld md dk vs =>
        cases kind with
        | constant v => exact absurd rfl (hnc _)
        | nested s' => exact absurd rfl (hnn _)
        | custom nm => exact absurd rfl (hncu _)
        | listK inner =>
            rcases hin : convertField inner ver with e | ij
            · simp [fieldOwn, hin, error_bind] at h
            · rcases ij with ⟨ijm, ijlg⟩
              simp only [fieldOwn, hin, ok_bind, Except.ok.injEq, Prod.mk.injEq] at h
              rcases h with ⟨hm, hlg⟩
              subst hm
              simp [lookupKey_addOpt_self, lookupKey_addOpt_ne, lookupKey,
                sw.default, sw.description, sw.items, sw.nullable, sw.type_]
        | method st =>
            rcases st with _ | t
            · simp [fieldOwn, error_bind] at h
            · simp only [fieldOwn, ok_bind, Except.ok.injEq, Prod.mk.injEq] at h
              rcases h with ⟨hm, hlg⟩
              subst hm
              simp [lookupKey_addOpt_self, lookupKey_addOpt_ne, lookupKey,
                sw.default, sw.description, sw.nullable, sw.type_]
        | function st =>
            rcases st with _ | t
            · simp [fieldOwn, error_bind] at h
            · simp only [fieldOwn, ok_bind, Except.ok.injEq, Prod.mk.injEq] at h
              rcases h with ⟨hm, hlg⟩
              subst hm
              simp [lookupKey_addOpt_self, lookupKey_addOpt_ne, lookupKey,
                sw.default, sw.description, sw.nullable, sw.type_]
        | _ =>
            simp only [fieldOwn, Except.ok.injEq, Prod.mk.injEq] at h
            rcases h with ⟨hm, hlg⟩
            subst hm
            simp [lookupKey_addOpt_self, lookupKey_addOpt_ne, lookupKey,
              sw.default, sw.description, sw.format_, sw.nullable, sw.type_]
  · intro own x
    exact lookupKey_setKey_ne own x (by decide)
  · intro v memo vout h
    exact convertValidator_lookup_none h (by decide)

/-- C7, counterexample: a Constant field's tagged setters produce only an
`enum` entry (plus base attributes) — no `type` key — yet its validators
are still converted against that memo; a Length validator attached to a
Constant field then raises `KeyError` on the missing `type` entry. -/
theorem C7_memo_counterexample :
    fieldOwn (MField.mk (.constant (JVal.str "x")) false false false none none none
        [.range none none]) 2 =
      .ok ([(sw.enum, JVal.arr [JVal.str "x"])], []) ∧
    lookupKey [(sw.enum, JVal.arr [JVal.str "x"])] sw.type_ = none ∧
    convertField (MField.mk (.constant (JVal.str "x")) false false false none none none
        [.length (some 1) none]) 2 = .error (.keyError sw.type_) := by
  refine ⟨?_, ?_, ?_⟩
  · simp [fieldOwn, addOpt, FieldConverter.get_default, FieldConverter.get_description,
      FieldConverter.get_nullable]
  · simp [lookupKey, sw.enum, sw.type_]
  · simp [convertField, fieldOwn, foldValidators, convertValidator,
      LengthConverter.get_maximum_items, LengthConverter.get_maximum_length,
      LengthConverter.get_minimum_items, LengthConverter.get_minimum_length,
      MField.dumpOnly, MField.validators, FieldConverter.get_default,
      FieldConverter.get_description, FieldConverter.get_nullable,
      addOpt, lookupKey, ok_bind, error_bind, sw.enum, sw.type_, sw.nullable]

theorem C7_memo_has_type_witness :
    lookupKey [(sw.type_, JVal.str sw.string)] sw.type_ ≠ none :=
  (C7_memo_has_type (MField.mk .string false false false none none none []) 2).1
    [(sw.type_, JVal.str sw.string)] []
    (fun v h => FieldKind.noConfusion h) (fun s' h => FieldKind.noConfusion h)
    (fun nm h => FieldKind.noConfusion h)
    (by simp [fieldOwn, addOpt, FieldConverter.get_default, FieldConverter.get_description,
      FieldConverter.get_nullable, FieldConverter.null_type_determination])

/-- C9: registry lookup walks the method-resolution order most-derived
first and dispatches to the first registered type's converter (so a
subclass with no converter of its own inherits its nearest registered
ancestor's); if no type in the hierarchy is registered it raises an
unregistered-type signal carrying the attempted hierarchy and the
registry's known types. -/
theorem C9_mro_dispatch :
    (∀ (tm : List (String × String)) (pre : List String) (t : String) (rest : List String)
        (c : String),
      (∀ t' ∈ pre, lookupKey tm t' = none) → lookupKey tm t = some c →
      getConverterForType tm (pre ++ t :: rest) = .ok c) ∧
    (∀ (tm : List (String × String)) (mro : List String),
      (∀ t ∈ mro, lookupKey tm t = none) →
      getConverterForType tm mro = .error (.unregisteredType mro (keysOf tm))) := by
  constructor
  · intro tm pre t rest c hpre ht
    unfold getConverterForType
    have hfr : findRegistered tm (pre ++ t :: rest) = some c := by
      induction pre with
      | nil => simp [findRegistered, ht]
      | cons a r ih =>
          simp [findRegistered, hpre a (by simp),
            ih (fun t' ht' => hpre t' (by simp [ht']))]
    rw [hfr]
  · intro tm mro h
    unfold getConverterForType
    have hfr : findRegistered tm mro = none := by
      induction mro with
      | nil => rfl
      | cons a r ih =>
          simp [findRegistered, h a (by simp), ih (fun t ht => h t (by simp [ht]))]
    rw [hfr]

theorem C9_mro_dispatch_witness :
    getConverterForType requestBodyTypeMap ["Email", "String", "Field", "object"] =
      .ok "StringConverter" ∧
    getConverterForType requestBodyTypeMap ["MyValidator", "Validator", "object"] =
      .error (.unregisteredType ["MyValidator", "Validator", "object"]
        (keysOf requestBodyTypeMap)) :=
  ⟨C9_mro_dispatch.1 requestBodyTypeMap ["Email"] "String" ["Field", "object"] "StringConverter"
      (by decide) (by decide),
   C9_mro_dispatch.2 requestBodyTypeMap ["MyValidator", "Validator", "object"] (by decide)⟩

/-- C10: under OpenAPI 3, a string or list field that allows `None` gets
the two-element type `[<name>, "null"]`, which compares unequal to the bare
name the Length converter tests against, so an attached Length validator
contributes none of minLength/maxLength/minItems/maxItems. -/
theorem C10_nullable_length_skip (mi ma : Option Int) :
    (∀ (m : JsonMap) (lg : List String),
      convertField (MField.mk .string true false false none none none [.length mi ma]) 3 =
          .ok (m, lg) →
      lookupKey m sw.type_ = some (.arr [.str sw.string, .str sw.null]) ∧
        lookupKey m sw.min_length = none ∧ lookupKey m sw.max_length = none ∧
        lookupKey m sw.min_items = none ∧ lookupKey m sw.max_items = none) ∧
    (∀ (inner : MField) (m : JsonMap) (lg : List String),
      convertField (MField.mk (.listK inner) true false false none none none [.length mi ma]) 3 =
          .ok (m, lg) →
      lookupKey m sw.type_ = some (.arr [.str sw.array, .str sw.null]) ∧
        lookupKey m sw.min_items = none ∧ lookupKey m sw.max_items = none ∧
        lookupKey m sw.min_length = none ∧ lookupKey m sw.max_length = none) := by
  constructor
  · intro m lg h
    simp only [convertField] at h
    simp [fieldOwn, ok_bind, MField.dumpOnly, MField.validators,
      FieldConverter.get_default, FieldConverter.get_description, FieldConverter.get_nullable,
      FieldConverter.null_type_determination, foldValidators, convertValidator,
      LengthConverter.get_maximum_items, LengthConverter.get_maximum_length,
      LengthConverter.get_minimum_items, LengthConverter.get_minimum_length,
      addOpt, setKey, lookupKey, updateMap, isStrVal,
      sw.nullable, sw.type_, sw.array, sw.string, sw.null,
      sw.min_items, sw.max_items, sw.min_length, sw.max_length] at h
    rcases h with ⟨hm, hlg⟩
    subst hm
    simp [lookupKey, sw.type_, sw.string, sw.null, sw.min_items, sw.max_items, sw.min_length,
      sw.max_length]
  · intro inner m lg h
    simp only [convertField] at h
    rcases hin : convertField inner 3 with e | ij
    · simp [fieldOwn, hin, error_bind] at h
    · rcases ij with ⟨ijm, ijlg⟩
      simp [fieldOwn, hin, ok_bind, MField.dumpOnly, MField.validators,
        FieldConverter.get_default, FieldConverter.get_description, FieldConverter.get_nullable,
        FieldConverter.null_type_determination, foldValidators, convertValidator,
        LengthConverter.get_maximum_items, LengthConverter.get_maximum_length,
        LengthConverter.get_minimum_items, LengthConverter.get_minimum_length,
        addOpt, setKey, lookupKey, updateMap, isStrVal,
        sw.nullable, sw.type_, sw.items, sw.array, sw.string, sw.null,
        sw.min_items, sw.max_items, sw.min_length, sw.max_length] at h
      rcases h with ⟨hm, hlg⟩
      subst hm
      simp [lookupKey, sw.type_, sw.items, sw.array, sw.null, sw.min_items, sw.max_items,
        sw.min_length, sw.max_length]

theorem C10_nullable_length_skip_witness :
    lookupKey [(sw.type_, JVal.arr [JVal.str sw.string, JVal.str sw.null])] sw.type_ =
      some (.arr [.str sw.string, .str sw.null]) ∧
    lookupKey [(sw.type_, JVal.arr [JVal.str sw.string, JVal.str sw.null])] sw.min_length = none ∧
    lookupKey [(sw.type_, JVal.arr [JVal.str sw.string, JVal.str sw.null])] sw.max_length = none ∧
    lookupKey [(sw.type_, JVal.arr [JVal.str sw.string, JVal.str sw.null])] sw.min_items = none ∧
    lookupKey [(sw.type_, JVal.arr [JVal.str sw.string, JVal.str sw.null])] sw.max_items = none :=
  (C10_nullable_length_skip (some 1) (some 5)).1
    [(sw.type_, JVal.arr [JVal.str sw.string, JVal.str sw.null])] []
    (by simp [convertField, fieldOwn, foldValidators, convertValidator,
      LengthConverter.get_maximum_items, LengthConverter.get_maximum_length,
      LengthConverter.get_minimum_items, LengthConverter.get_minimum_length,
      MField.dumpOnly, MField.validators, FieldConverter.get_default,
      FieldConverter.get_description, FieldConverter.get_nullable,
      FieldConverter.null_type_determination, addOpt, setKey, lookupKey, updateMap, isStrVal,
      ok_bind, sw.nullable, sw.type_, sw.array, sw.string, sw.null,
      sw.min_items, sw.max_items, sw.min_length, sw.max_length])
